import Mathlib

/-!
Verification development for the QMCTorch core numerical kernels:
the atomic-orbital evaluation engine (`qmctorch/wavefunction/orbitals/`)
and the electron-electron Jastrow factor engine
(`qmctorch/wavefunction/jastrows/elec_elec/`).

Real-valued float tensors of the source are embedded as exact rationals
(`ℚ`); batched tensors become functions of their integer indices, so an
operation that the source performs elementwise along the batch and
electron axes is embedded pointwise.  The transcendental collaborators
(`torch.exp`, `torch.sqrt`) and the polymorphic collaborator modules
(radial library, Jastrow kernel, electron-electron distance engine) are
passed as explicit function parameters, exactly as the source selects
them once at construction time and stores them on the module.
-/

namespace QMCTorch

/-- A 3-component spatial vector (one electron's x, y, z displacement). -/
abbrev Vec3 := ℚ × ℚ × ℚ

/-- Squared Euclidean norm of a displacement vector,
`(xyz * xyz).sum(3)` in the source. -/
def normSq (v : Vec3) : ℚ := v.1 ^ 2 + v.2.1 ^ 2 + v.2.2 ^ 2

/-! ### Spherical harmonics (`spherical_harmonics.py`)

The l = 0 and l = 2 value / unsummed-gradient formulas, translated
branch by branch.  The source computes `r = torch.sqrt((xyz**2).sum(3))`
and then only uses the even powers `r**2` and `r**4`, which are
polynomial in the coordinates, so the embedding stays inside `ℚ`. -/

/-- Source `_spherical_harmonics_l0`: the constant `0.2820948`. -/
def spherical_harmonics_l0 (_xyz : Vec3) : ℚ := 0.2820948

/-- Source `_grad_spherical_harmonics_l0`: the zero vector. -/
def grad_spherical_harmonics_l0 (_xyz : Vec3) : Vec3 := (0, 0, 0)

/-- Source `_nabla_spherical_harmonics_l0`: the dimension-summed l = 0
gradient, identically zero. -/
def nabla_spherical_harmonics_l0 (_xyz : Vec3) : ℚ := 0

/-- Source `_spherical_harmonics_l2`: the five real l = 2 harmonics.  The source
dispatches `m = 0` (constant `0.31539156525252005`), `m = 2` (constant
`0.5462742152960396`) and otherwise reads the coordinate pair from the
dict `{-2: [0, 1], -1: [1, 2], 1: [2, 0]}` with constant
`1.0925484305920792`. -/
def spherical_harmonics_l2 (m : ℤ) (xyz : Vec3) : ℚ :=
  let x := xyz.1; let y := xyz.2.1; let z := xyz.2.2
  let r2 := normSq xyz
  if m = 0 then 0.31539156525252005 * (-x ^ 2 - y ^ 2 + 2 * z ^ 2) / r2
  else if m = 2 then 0.5462742152960396 * (x ^ 2 - y ^ 2) / r2
  else
    1.0925484305920792 *
      (if m = -2 then x * y else if m = -1 then y * z else z * x) / r2

/-- Source `_grad_spherical_harmonics_l2`: the unsummed gradient of the l = 2
harmonics, translated branch by branch.  Note the source multiplies the
`m = -2`, `m = -1`, `m = 0` and `m = 1` branches by
`c0 = 0.31539156525252005` and the `m = 2` branch by
`c0 = 0.5462742152960396`, and divides by `r**4 = ((xyz**2).sum(3))**2`. -/
def grad_spherical_harmonics_l2 (m : ℤ) (xyz : Vec3) : Vec3 :=
  let x := xyz.1; let y := xyz.2.1; let z := xyz.2.2
  let r4 := normSq xyz ^ 2
  if m = -2 then
    (0.31539156525252005 / r4 * (y * (-x ^ 2 + y ^ 2 + z ^ 2)),
     0.31539156525252005 / r4 * (x * (-y ^ 2 + x ^ 2 + z ^ 2)),
     0.31539156525252005 / r4 * (-2 * (x * y * z)))
  else if m = -1 then
    (0.31539156525252005 / r4 * (-2 * (x * y * z)),
     0.31539156525252005 / r4 * (z * (-y ^ 2 + x ^ 2 + z ^ 2)),
     0.31539156525252005 / r4 * (y * (-z ^ 2 + x ^ 2 + y ^ 2)))
  else if m = 0 then
    (0.31539156525252005 / r4 * (-6 * x * z * z),
     0.31539156525252005 / r4 * (-6 * y * z * z),
     0.31539156525252005 / r4 * (6 * x * x * z + 6 * y * y * z))
  else if m = 1 then
    (0.31539156525252005 / r4 * (z * (-x * x + y * y + z * z)),
     0.31539156525252005 / r4 * (-2 * (x * y * z)),
     0.31539156525252005 / r4 * (x * (x * x + y * y - z * z)))
  else
    (0.5462742152960396 / r4 * (4 * x * y * y + 2 * x * z * z),
     0.5462742152960396 / r4 * (-4 * x * x * y - 2 * y * z * z),
     0.5462742152960396 / r4 * (-2 * z * (x * x - y * y)))

/-! ### Contraction of primitives into orbitals (`atomic_orbitals.py`)

A tensor slice along the primitive axis is a function `ℕ → ℚ` (the
batch and electron axes, along which the source operates elementwise,
are added back pointwise where a claim needs them). -/

namespace AtomicOrbitals

/-- The `contract` flag computed in `AtomicOrbitals.__init__`:
`not len(torch.unique(self.index_ctr)) == len(self.index_ctr)`.
`torch.unique` returns the distinct values, so its length is the length
of `dedup`. -/
def contract_flag (index_ctr : List ℕ) : Bool :=
  !(index_ctr.dedup.length == index_ctr.length)

/-- Semantics of `out.index_add_(axis, idx, src)` along one axis:
entry `e` of the result accumulates `src k` for every position `k`
whose index `idx[k]` equals `e`. -/
def index_add (idx : List ℕ) (src : ℕ → ℚ) (out : ℕ → ℚ) : ℕ → ℚ :=
  fun e => out e + ∑ k ∈ Finset.range idx.length,
    if idx.getD k 0 = e then src k else 0

/-- Source `AtomicOrbitals._contract`: multiply by the contraction coefficients
and scatter-add the primitives into `norb` orbitals along `index_ctr`
(`cbas = zeros(...); cbas.index_add_(2, self.index_ctr, bas_coeffs * bas)`). -/
def _contract (norb : ℕ) (index_ctr : List ℕ) (bas_coeffs : ℕ → ℚ)
    (bas : ℕ → ℚ) : ℕ → ℚ :=
  fun o =>
    if o < norb then
      index_add index_ctr (fun i => bas_coeffs i * bas i) (fun _ => 0) o
    else 0

/-- Source `AtomicOrbitals._ao_kernel`: `ao = norm_cst * R * Y`, contracted only
when the `contract` flag is set. -/
def _ao_kernel (norb : ℕ) (index_ctr : List ℕ) (norm_cst bas_coeffs : ℕ → ℚ)
    (R Y : ℕ → ℚ) : ℕ → ℚ :=
  let ao := fun i => norm_cst i * R i * Y i
  if contract_flag index_ctr then _contract norb index_ctr bas_coeffs ao
  else ao

/-- Source `AtomicOrbitals._sum_gradient_kernel`:
`dao = norm_cst * (dR * Y + R * dY)`, contracted only when the
`contract` flag is set (`dR`, `dY` already summed over the spatial
dimension by the radial / harmonics engines). -/
def _sum_gradient_kernel (norb : ℕ) (index_ctr : List ℕ)
    (norm_cst bas_coeffs : ℕ → ℚ) (R dR Y dY : ℕ → ℚ) : ℕ → ℚ :=
  let dao := fun i => norm_cst i * (dR i * Y i + R i * dY i)
  if contract_flag index_ctr then _contract norb index_ctr bas_coeffs dao
  else dao

end AtomicOrbitals

/-! ### Electron-electron Jastrow factor
(`jastrow_factor_electron_electron.py`)

Pair-indexed tensors are embedded as functions of (batch, pair
position); the spatial-dimension axis of the distance derivatives is a
further `ℕ` argument ranging over `0, 1, 2` (`ndim = 3`). -/

namespace JastrowFactorElectronElectron

/-- The row/column index arrays built by `get_mask_tri_up`: the loops
`for i in range(nelec - 1): for j in range(i + 1, nelec)` append `i` to
`index_row` and `j` to `index_col`, enumerating the strict upper
triangle in row-major order. -/
def index_pairs (nelec : ℕ) : List (ℕ × ℕ) :=
  (List.range (nelec - 1)).flatMap fun i =>
    (List.range' (i + 1) (nelec - 1 - i)).map fun j => (i, j)

/-- The `index_row` array (first loop variable). -/
def index_row (nelec : ℕ) : List ℕ := (index_pairs nelec).map Prod.fst

/-- The `index_col` array (second loop variable). -/
def index_col (nelec : ℕ) : List ℕ := (index_pairs nelec).map Prod.snd

/-- Source `extract_tri_up`: `masked_select` with the strict-upper-triangular
mask returns, per batch entry, the matrix entries `(i, j)` with `i < j`
in row-major order — the same order as `index_row` / `index_col`. -/
def extract_tri_up (nelec : ℕ) (inp : ℕ → ℕ → ℕ → ℚ) (b : ℕ) : List ℚ :=
  (index_pairs nelec).map fun ij => inp b ij.1 ij.2

/-- Source `.sum(-2)` over the spatial-dimension axis of a
(batch, dim, pair) tensor, with `ndim = 3`. -/
def dimSum (t : ℕ → ℕ → ℕ → ℚ) : ℕ → ℕ → ℚ :=
  fun b p => t b 0 p + t b 1 p + t b 2 p

/-- The signed scatter-add shared by `jastrow_factor_derivative` and
`partial_derivative`:
`out = zeros(..); out.index_add_(-1, index_row, v); out.index_add_(-1, index_col, -v)`. -/
def signed_scatter (nelec : ℕ) (v : ℕ → ℚ) : ℕ → ℚ :=
  AtomicOrbitals.index_add (index_col nelec) (fun p => -v p)
    (AtomicOrbitals.index_add (index_row nelec) v (fun _ => 0))

/-- Source `jastrow_factor_derivative` with `sum_grad=True`: the kernel
derivative is summed over the spatial dimension, multiplied by the
Jastrow value, and scattered with sign `+1` on the row index and `-1`
on the column index.  `computeD` stands for the polymorphic
`jastrow_kernel.compute_derivative`. -/
def jastrow_factor_derivative_summed (nelec : ℕ)
    (computeD : (ℕ → List ℚ) → (ℕ → ℕ → ℕ → ℚ) → ℕ → ℕ → ℕ → ℚ)
    (r : ℕ → List ℚ) (dr : ℕ → ℕ → ℕ → ℚ) (jast : ℕ → ℚ) :
    ℕ → ℕ → ℚ :=
  fun b =>
    let djast := fun p => dimSum (computeD r dr) b p * jast b
    signed_scatter nelec djast

/-- Source `jastrow_factor_derivative` with `sum_grad=False`: as above but
keeping the spatial-dimension axis (output (batch, dim, electron)). -/
def jastrow_factor_derivative_unsummed (nelec : ℕ)
    (computeD : (ℕ → List ℚ) → (ℕ → ℕ → ℕ → ℚ) → ℕ → ℕ → ℕ → ℚ)
    (r : ℕ → List ℚ) (dr : ℕ → ℕ → ℕ → ℚ) (jast : ℕ → ℚ) :
    ℕ → ℕ → ℕ → ℚ :=
  fun b d =>
    let djast := fun p => computeD r dr b d p * jast b
    signed_scatter nelec djast

/-- Source `partial_derivative`: repeat the signed scatter-add of the unsummed
kernel first derivatives along the last axis, square, and sum with
`(out**2).sum(-2)` — the `-2` axis of the (batch, dim, electron) result
is the spatial-dimension axis (`ndim = 3`). -/
def partial_derivative (nelec : ℕ) (djast : ℕ → ℕ → ℕ → ℚ) : ℕ → ℕ → ℚ :=
  fun b e =>
    signed_scatter nelec (djast b 0) e ^ 2 +
    signed_scatter nelec (djast b 1) e ^ 2 +
    signed_scatter nelec (djast b 2) e ^ 2

/-- Source `jastrow_factor_second_derivative`: scatter the dimension-summed
kernel second derivatives over both index arrays with sign `+1`, add
the `partial_derivative` cross term built from the unsummed kernel
first derivatives, and multiply by the Jastrow value. -/
def jastrow_factor_second_derivative (nelec : ℕ)
    (computeD : (ℕ → List ℚ) → (ℕ → ℕ → ℕ → ℚ) → ℕ → ℕ → ℕ → ℚ)
    (computeD2 :
      (ℕ → List ℚ) → (ℕ → ℕ → ℕ → ℚ) → (ℕ → ℕ → ℕ → ℚ) → ℕ → ℕ → ℕ → ℚ)
    (r : ℕ → List ℚ) (dr d2r : ℕ → ℕ → ℕ → ℚ) (jast : ℕ → ℚ) :
    ℕ → ℕ → ℚ :=
  fun b e =>
    let d2jast := dimSum (computeD2 r dr d2r) b
    let hess_jast :=
      AtomicOrbitals.index_add (index_col nelec) d2jast
        (AtomicOrbitals.index_add (index_row nelec) d2jast (fun _ => 0))
    let djast := computeD r dr
    (hess_jast e + partial_derivative nelec djast b e) * jast b

/-- The Jastrow value branch of `forward`:
`r = extract_tri_up(edist(pos)); jast = exp(kernel(r).sum(-1)).unsqueeze(-1)`,
a (batch, 1) tensor.  `kernel` is the polymorphic scalar Jastrow kernel
applied elementwise and `expF` stands for `torch.exp`; `edist` is the
distance matrix produced by the `ElectronElectronDistance`
collaborator. -/
def jastrow_value (nelec : ℕ) (kernel expF : ℚ → ℚ)
    (edist : ℕ → ℕ → ℕ → ℚ) : ℕ → Fin 1 → ℚ :=
  fun b _ => expF ((extract_tri_up nelec edist b).map kernel).sum

end JastrowFactorElectronElectron

/-! ### Atomic-orbital evaluation pipeline (`atomic_orbitals.py`)

The module state fixed at construction: basis geometry, contraction
data, and the radial / harmonics collaborators selected from
`radial_dict` and the `Harmonics` engine.  `sqrtF` stands for
`torch.sqrt` in `_elec_atom_dist`. -/

/-- Componentwise difference of displacement vectors. -/
def vsub (a b : Vec3) : Vec3 := (a.1 - b.1, a.2.1 - b.2.1, a.2.2 - b.2.2)

/-- Construction-time state of `AtomicOrbitals` (the fields read during
a forward evaluation).  `radial_val` / `radial_grad_sum` are the value
and dimension-summed first derivative of the selected radial variant;
`harm_val` / `harm_grad_sum` likewise for the harmonics engine, indexed
by the primitive (whose quantum numbers are fixed at construction). -/
structure AOParams where
  nelec : ℕ
  natoms : ℕ
  atom_coords : ℕ → Vec3
  nshells : ℕ → ℕ
  nbas : ℕ
  norb : ℕ
  index_ctr : List ℕ
  norm_cst : ℕ → ℚ
  bas_coeffs : ℕ → ℚ
  bas_n : ℕ → ℚ
  bas_exp : ℕ → ℚ
  sqrtF : ℚ → ℚ
  radial_val : ℚ → ℚ → ℚ → ℚ
  radial_grad_sum : ℚ → ℚ → ℚ → Vec3 → ℚ
  harm_val : ℕ → Vec3 → ℚ
  harm_grad_sum : ℕ → Vec3 → ℚ

namespace AtomicOrbitals

/-- Source `bas_coords = atom_coords.repeat_interleave(nshells, dim=0)`: the
atom owning each primitive, atom `a` repeated `nshells a` times. -/
def bas_atom (p : AOParams) : List ℕ :=
  (List.range p.natoms).flatMap fun a => List.replicate (p.nshells a) a

/-- Source `_process_position`, per electron and primitive: the displacement
`pos - bas_coords` (`repeat_interleave(nshells, dim=2)` of the
elec-atom vectors). -/
def elec_bas_xyz (p : AOParams) (epos : Vec3) (i : ℕ) : Vec3 :=
  vsub epos (p.atom_coords ((bas_atom p).getD i 0))

/-- Source `_elec_atom_dist`: `r = torch.sqrt((xyz * xyz).sum(3))`, per
primitive after the shell repeat. -/
def elec_bas_r (p : AOParams) (epos : Vec3) (i : ℕ) : ℚ :=
  p.sqrtF (normSq (elec_bas_xyz p epos i))

/-- One electron's row of `_compute_ao_values`: radial times harmonics
through `_ao_kernel`.  The batched source computes every electron's row
by the same elementwise formulas, so the full tensor is this function
mapped over the batch and electron axes. -/
def ao_value_row (p : AOParams) (epos : Vec3) : ℕ → ℚ :=
  _ao_kernel p.norb p.index_ctr p.norm_cst p.bas_coeffs
    (fun i => p.radial_val (elec_bas_r p epos i) (p.bas_n i) (p.bas_exp i))
    (fun i => p.harm_val i (elec_bas_xyz p epos i))

/-- One electron's row of `_compute_sum_gradient_ao_values`
(`derivative=[1]`, `sum_grad=True`): `norm_cst * (dR * Y + R * dY)`
through `_sum_gradient_kernel`. -/
def ao_sum_gradient_row (p : AOParams) (epos : Vec3) : ℕ → ℚ :=
  _sum_gradient_kernel p.norb p.index_ctr p.norm_cst p.bas_coeffs
    (fun i => p.radial_val (elec_bas_r p epos i) (p.bas_n i) (p.bas_exp i))
    (fun i => p.radial_grad_sum (elec_bas_r p epos i) (p.bas_n i) (p.bas_exp i)
      (elec_bas_xyz p epos i))
    (fun i => p.harm_val i (elec_bas_xyz p epos i))
    (fun i => p.harm_grad_sum i (elec_bas_xyz p epos i))

/-- Source `_compute_ao_values` over a (batch, electron) position tensor. -/
def compute_ao_values (p : AOParams) (pos : ℕ → ℕ → Vec3) : ℕ → ℕ → ℕ → ℚ :=
  fun b e => ao_value_row p (pos b e)

/-- Source `_compute_sum_gradient_ao_values` over a (batch, electron) position
tensor. -/
def compute_sum_gradient_ao_values (p : AOParams) (pos : ℕ → ℕ → Vec3) :
    ℕ → ℕ → ℕ → ℚ :=
  fun b e => ao_sum_gradient_row p (pos b e)

/-- Source `AtomicOrbitals.update`: clone the previous AO tensor and overwrite
row `idelec` with `self.forward(pos[:, ids:ide], one_elec=True)`, the
value computation on the moved electron's coordinates alone. -/
def update (p : AOParams) (ao : ℕ → ℕ → ℕ → ℚ) (pos : ℕ → ℕ → Vec3)
    (idelec : ℕ) : ℕ → ℕ → ℕ → ℚ :=
  fun b e o => if e = idelec then ao_value_row p (pos b idelec) o else ao b e o

/-- The full effect of a call to `update` on its caller: the first
component is the argument tensor after the call (`update` works on
`ao.clone()`, so the argument is left untouched), the second the
returned tensor. -/
def update_call (p : AOParams) (ao : ℕ → ℕ → ℕ → ℚ) (pos : ℕ → ℕ → Vec3)
    (idelec : ℕ) : (ℕ → ℕ → ℕ → ℚ) × (ℕ → ℕ → ℕ → ℚ) :=
  (ao, update p ao pos idelec)

end AtomicOrbitals

/-- Modelled from the spec: the Slater-pure variant of the missing
`radial_functions` module, `R = exp(-ζ r)` with the principal quantum
number folded into the harmonics; `expF` stands for the exponential. -/
def radial_slater_pure_val (expF : ℚ → ℚ) (r _n ζ : ℚ) : ℚ := expF (-ζ * r)

/-- Modelled from the spec: the dimension-summed first derivative of the
Slater-pure radial, obtained by explicit chain rule through `r = |x|`:
`dR/dx_k = -ζ (x_k / r) exp(-ζ r)`, summed over the three
components. -/
def radial_slater_pure_grad_sum (expF : ℚ → ℚ) (r _n ζ : ℚ) (xyz : Vec3) : ℚ :=
  -ζ * (xyz.1 / r) * expF (-ζ * r) + -ζ * (xyz.2.1 / r) * expF (-ζ * r) +
    -ζ * (xyz.2.2 / r) * expF (-ζ * r)

/-- The `derivative` argument of the forward entry points: the source
accepts a plain int or a list of ints
(`if not isinstance(derivative, list): derivative = [derivative]`). -/
inductive DerivArg
  | int (n : ℤ)
  | list (ds : List ℤ)
deriving DecidableEq

/-- Normalization of the derivative argument to a list. -/
def DerivArg.toList : DerivArg → List ℤ
  | .int n => [n]
  | .list ds => ds

namespace AtomicOrbitals

/-- Source `AtomicOrbitals.forward`: the derivative-request dispatch together
with its effect on the stored electron count.  The result pairs the
value of `self.nelec` after a normal return with the computed tensor;
`compute` stands for the `_compute_*_ao_values` family, which reads but
never writes `self.nelec` (passed here as its last argument).  With
`one_elec=True` the source saves `self.nelec`, sets it to `1` for the
computation, and restores the saved value before returning. -/
def forward {T : Type} (compute : List ℤ → Bool → Bool → ℕ → T)
    (nelec : ℕ) (derivative : DerivArg) (sum_grad sum_hess one_elec : Bool) :
    Except String (ℕ × T) :=
  let ds := derivative.toList
  if ¬sum_grad ∧ 1 ∉ ds then .error "AssertionError"
  else if ¬sum_hess ∧ 2 ∉ ds then .error "AssertionError"
  else
    let nelec_save := nelec
    let nelec_eff := if one_elec then 1 else nelec
    if ds = [0] ∨ ds = [1] ∨ ds = [2] ∨ ds = [3] ∨ ds = [0, 1, 2] then
      .ok (if one_elec then nelec_save else nelec_eff,
           compute ds sum_grad sum_hess nelec_eff)
    else
      .error "derivative must be 0, 1, 2, 3 or [0, 1, 2, 3]"

end AtomicOrbitals

/-! ### Harmonics engine construction and dispatch
(`spherical_harmonics.py`) -/

/-- The state stored by `Harmonics.__init__`: the type tag, and the
quantum numbers registered by the `"sph"` / `"cart"` branches (an
unrecognized type stores nothing beyond the tag — `__init__` has no
`else` branch and raises no error). -/
structure HarmState where
  htype : String
  bas_l : Option (List ℤ)
  bas_m : Option (List ℤ)
  bas_k : Option (List (ℤ × ℤ × ℤ))
deriving DecidableEq

namespace Harmonics

/-- Source `Harmonics.__init__`: store the type tag; register `bas_l, bas_m`
for `"sph"`, the stacked `bas_k` for `"cart"`, and nothing else
otherwise.  Construction is total: no validation is performed. -/
def init (type : String) (bas_l bas_m bas_kx bas_ky bas_kz : List ℤ) :
    HarmState :=
  if type = "sph" then ⟨type, some bas_l, some bas_m, none⟩
  else if type = "cart" then
    ⟨type, none, none,
     some ((bas_kx.zip (bas_ky.zip bas_kz)).map fun q => (q.1, q.2.1, q.2.2))⟩
  else ⟨type, none, none, none⟩

end Harmonics

/-- The computation selected inside `SphericalHarmonics`: either the
per-order value/derivative loop (`get_spherical_harmonics` for each
requested order) or the unsummed gradient
(`get_grad_spherical_harmonics`). -/
inductive SphPath
  | values (ds : List ℤ)
  | grad
deriving DecidableEq

/-- The `SphericalHarmonics` entry dispatch: an unsummed Hessian request
raises `NotImplementedError`, a summed request evaluates every order,
and an unsummed gradient is only available for `derivative=[1]`. -/
def SphericalHarmonics_dispatch (derivative : List ℤ)
    (sum_grad sum_hess : Bool) : Except String SphPath :=
  if ¬sum_hess then
    .error "SphericalHarmonics cannot return individual component of the laplacian"
  else if sum_grad then .ok (.values derivative)
  else if derivative ≠ [1] then
    .error "Gradient of the spherical harmonics require derivative=1"
  else .ok .grad

/-- The computation selected by `Harmonics.__call__`. -/
inductive HarmOut
  | cart (ds : List ℤ) (sum_grad sum_hess : Bool)
  | sph (path : SphPath)
deriving DecidableEq

namespace Harmonics

/-- Source `Harmonics.__call__`: dispatch on the stored type tag —
`CartesianHarmonics` for `"cart"`, `SphericalHarmonics` for `"sph"`,
and only otherwise `raise ValueError`. -/
def call (st : HarmState) (derivative : List ℤ) (sum_grad sum_hess : Bool) :
    Except String HarmOut :=
  if st.htype = "cart" then .ok (.cart derivative sum_grad sum_hess)
  else if st.htype = "sph" then
    (SphericalHarmonics_dispatch derivative sum_grad sum_hess).map .sph
  else .error "Harmonics type should be cart or sph"

end Harmonics

namespace JastrowFactorElectronElectron

/-- The gradient returned by `jastrow_factor_derivative`, summed or
per-dimension according to `sum_grad`. -/
inductive JGrad
  | summed (t : ℕ → ℕ → ℚ)
  | unsummed (t : ℕ → ℕ → ℕ → ℚ)

/-- Source `jastrow_factor_derivative` with its `sum_grad` switch. -/
def jastrow_factor_derivative (nelec : ℕ)
    (computeD : (ℕ → List ℚ) → (ℕ → ℕ → ℕ → ℚ) → ℕ → ℕ → ℕ → ℚ)
    (r : ℕ → List ℚ) (dr : ℕ → ℕ → ℕ → ℚ) (jast : ℕ → ℚ)
    (sum_grad : Bool) : JGrad :=
  if sum_grad then
    .summed (jastrow_factor_derivative_summed nelec computeD r dr jast)
  else
    .unsummed (jastrow_factor_derivative_unsummed nelec computeD r dr jast)

/-- The result of `JastrowFactorElectronElectron.forward`. -/
inductive JOut
  | value (t : ℕ → Fin 1 → ℚ)
  | grad (g : JGrad)
  | hess (t : ℕ → ℕ → ℚ)
  | triple (v : ℕ → Fin 1 → ℚ) (g : JGrad) (h2 : ℕ → ℕ → ℚ)

/-- Source `JastrowFactorElectronElectron.forward`: compute the unique pair
distances and the Jastrow value, then dispatch on the `derivative`
argument.  The chain of `if/elif` has no `else`: a derivative request
matching none of `0`, `1`, `2`, `[0, 1, 2]` falls through and the call
returns `None` (`Except.ok none`) — it raises nothing.  `dr` and `d2r`
stand for the `get_edist_unique(pos, derivative=1/2)` tensors supplied
by the distance engine. -/
def forward (nelec : ℕ) (kernel expF : ℚ → ℚ)
    (computeD : (ℕ → List ℚ) → (ℕ → ℕ → ℕ → ℚ) → ℕ → ℕ → ℕ → ℚ)
    (computeD2 :
      (ℕ → List ℚ) → (ℕ → ℕ → ℕ → ℚ) → (ℕ → ℕ → ℕ → ℚ) → ℕ → ℕ → ℕ → ℚ)
    (edist : ℕ → ℕ → ℕ → ℚ) (dr d2r : ℕ → ℕ → ℕ → ℚ)
    (derivative : DerivArg) (sum_grad : Bool) :
    Except String (Option JOut) :=
  let r := extract_tri_up nelec edist
  let jast := jastrow_value nelec kernel expF edist
  let jastS := fun b => jast b 0
  if derivative = .int 0 then .ok (some (.value jast))
  else if derivative = .int 1 then
    .ok (some (.grad (jastrow_factor_derivative nelec computeD r dr jastS sum_grad)))
  else if derivative = .int 2 then
    .ok (some (.hess
      (jastrow_factor_second_derivative nelec computeD computeD2 r dr d2r jastS)))
  else if derivative = .list [0, 1, 2] then
    .ok (some (.triple jast
      (jastrow_factor_derivative nelec computeD r dr jastS sum_grad)
      (jastrow_factor_second_derivative nelec computeD computeD2 r dr d2r jastS)))
  else .ok none

end JastrowFactorElectronElectron

/-! ### Concrete instances used by counterexamples and witnesses -/

/-- Concrete stand-in for `torch.sqrt` used by counterexamples: correct
on the squared distances that actually occur there (`1` and `4`). -/
def ceSqrt : ℚ → ℚ := fun q => if q = 1 then 1 else if q = 4 then 2 else 0

/-- Construction-time state used for the C4/C8 counterexamples: one
electron and one uncontracted Slater-pure s primitive (l = 0, ζ = 0) on
a single atom at the origin.  `expF` / `sqrtF` stand for the
exponential and square root, `ncst` for the normalization constant. -/
def ceParams (expF sqrtF : ℚ → ℚ) (ncst : ℚ) : AOParams where
  nelec := 1
  natoms := 1
  atom_coords := fun _ => (0, 0, 0)
  nshells := fun _ => 1
  nbas := 1
  norb := 1
  index_ctr := [0]
  norm_cst := fun _ => ncst
  bas_coeffs := fun _ => 1
  bas_n := fun _ => 0
  bas_exp := fun _ => 0
  sqrtF := sqrtF
  radial_val := radial_slater_pure_val expF
  radial_grad_sum := radial_slater_pure_grad_sum expF
  harm_val := fun _ => spherical_harmonics_l0
  harm_grad_sum := fun _ => nabla_spherical_harmonics_l0

/-- Position batch before the move for the C4 counterexample: the one
electron at `(2, 0, 0)`. -/
def cePosOld : ℕ → ℕ → Vec3 := fun _ _ => (2, 0, 0)

/-- Position batch after the move: the one electron at `(1, 0, 0)`. -/
def cePosNew : ℕ → ℕ → Vec3 := fun _ _ => (1, 0, 0)

/-- The Jastrow second-derivative cross term as the claim words it:
repeat the signed scatter-add of the kernel first derivatives, square
it, and sum over the scattered electron(-pair) axis — leaving the
spatial-dimension index free, unlike the source's
`partial_derivative`, which sums over the spatial-dimension axis and
leaves the electron index free. -/
def partial_derivative_claimed (nelec : ℕ) (djast : ℕ → ℕ → ℕ → ℚ) :
    ℕ → ℕ → ℚ :=
  fun b d => ∑ e ∈ Finset.range nelec,
    JastrowFactorElectronElectron.signed_scatter nelec (djast b d) e ^ 2

/-- The Jastrow second derivative as the claim words it: the value
times the sum of the direct (+row, +col) scatter-add of kernel second
derivatives and the claim's cross term. -/
def jastrow_second_derivative_claimed (nelec : ℕ)
    (computeD : (ℕ → List ℚ) → (ℕ → ℕ → ℕ → ℚ) → ℕ → ℕ → ℕ → ℚ)
    (computeD2 :
      (ℕ → List ℚ) → (ℕ → ℕ → ℕ → ℚ) → (ℕ → ℕ → ℕ → ℚ) → ℕ → ℕ → ℕ → ℚ)
    (r : ℕ → List ℚ) (dr d2r : ℕ → ℕ → ℕ → ℚ) (jast : ℕ → ℚ) :
    ℕ → ℕ → ℚ :=
  fun b e =>
    jast b *
      (AtomicOrbitals.index_add (JastrowFactorElectronElectron.index_col nelec)
          (JastrowFactorElectronElectron.dimSum (computeD2 r dr d2r) b)
          (AtomicOrbitals.index_add
            (JastrowFactorElectronElectron.index_row nelec)
            (JastrowFactorElectronElectron.dimSum (computeD2 r dr d2r) b)
            (fun _ => 0)) e
        + partial_derivative_claimed nelec (computeD r dr) b e)

/-- Concrete kernel first-derivative collaborator for the C6
counterexample: 1 on the first spatial dimension of the first pair,
0 elsewhere. -/
def ceKernelD : (ℕ → List ℚ) → (ℕ → ℕ → ℕ → ℚ) → ℕ → ℕ → ℕ → ℚ :=
  fun _ _ _ d p => if d = 0 ∧ p = 0 then 1 else 0

/-- Concrete kernel second-derivative collaborator for the C6
counterexample (identically zero). -/
def ceKernelD2 :
    (ℕ → List ℚ) → (ℕ → ℕ → ℕ → ℚ) → (ℕ → ℕ → ℕ → ℚ) → ℕ → ℕ → ℕ → ℚ :=
  fun _ _ _ _ _ _ => 0

/-- A small concrete `AOParams` instance used by witnesses. -/
def aoPW : AOParams where
  nelec := 1
  natoms := 1
  atom_coords := fun _ => (0, 0, 0)
  nshells := fun _ => 1
  nbas := 1
  norb := 1
  index_ctr := [0]
  norm_cst := fun _ => 1
  bas_coeffs := fun _ => 1
  bas_n := fun _ => 0
  bas_exp := fun _ => 1
  sqrtF := id
  radial_val := fun r _ _ => r
  radial_grad_sum := fun _ _ _ _ => 0
  harm_val := fun _ => spherical_harmonics_l0
  harm_grad_sum := fun _ => nabla_spherical_harmonics_l0

/-! ### Theorems -/

open AtomicOrbitals JastrowFactorElectronElectron

/-- C1: for every electron-position batch (the radial and harmonics
tensors `R`, `Y` are arbitrary) and every basis whose contraction map is
the identity (primitive `i` mapped to orbital `i`), the atomic-orbital
value output of `_ao_kernel` equals the un-contracted per-primitive
output `norm_cst * R * Y` exactly: the `contract` flag computed from the
one-to-one map is false, so the scatter-add stage is a no-op. -/
theorem ao_kernel_identity_contraction (nbas norb : ℕ)
    (norm_cst bas_coeffs : ℕ → ℚ) (R Y : ℕ → ℕ → ℕ → ℚ) :
    (fun b e => _ao_kernel norb (List.range nbas) norm_cst bas_coeffs
        (R b e) (Y b e))
      = fun b e i => norm_cst i * R b e i * Y b e i := by
  funext b e i
  simp [_ao_kernel, contract_flag, List.Nodup.dedup (List.nodup_range nbas),
    List.length_range]

/-- C5: for a two-electron system (`nelec = 2`, sole pair `(0, 1)` with
electron 0 the row member and electron 1 the column member) and every
batch entry, the signed scatter-add of the Jastrow gradient assembly
produces contributions of equal magnitude and opposite sign: entry 0
carries `+1` and entry 1 carries `-1` times the same kernel-derivative
magnitude (the dimension-summed kernel derivative times the Jastrow
value). -/
theorem jastrow_gradient_antisymmetry_two_electrons
    (computeD : (ℕ → List ℚ) → (ℕ → ℕ → ℕ → ℚ) → ℕ → ℕ → ℕ → ℚ)
    (r : ℕ → List ℚ) (dr : ℕ → ℕ → ℕ → ℚ) (jast : ℕ → ℚ) (b : ℕ) :
    jastrow_factor_derivative_summed 2 computeD r dr jast b 0
        = dimSum (computeD r dr) b 0 * jast b ∧
      jastrow_factor_derivative_summed 2 computeD r dr jast b 1
        = -(dimSum (computeD r dr) b 0 * jast b) := by
  constructor <;>
    simp [jastrow_factor_derivative_summed, signed_scatter, index_row,
      index_col, index_pairs, index_add, List.range',
      List.range_succ]

/-- C7: for a two-electron system and every batch entry, the Jastrow
value branch of `forward` returns `exp(kernel(r₁₂))` exactly, where
`r₁₂` is the single extracted pair distance `edist[0, 1]` (no summation
over further pairs), as a (batch, 1)-shaped tensor. -/
theorem jastrow_value_two_electrons_exp_kernel (kernel expF : ℚ → ℚ)
    (computeD : (ℕ → List ℚ) → (ℕ → ℕ → ℕ → ℚ) → ℕ → ℕ → ℕ → ℚ)
    (computeD2 :
      (ℕ → List ℚ) → (ℕ → ℕ → ℕ → ℚ) → (ℕ → ℕ → ℕ → ℚ) → ℕ → ℕ → ℕ → ℚ)
    (edist dr d2r : ℕ → ℕ → ℕ → ℚ) (sum_grad : Bool) :
    JastrowFactorElectronElectron.forward 2 kernel expF computeD computeD2
        edist dr d2r (.int 0) sum_grad
      = .ok (some (.value (jastrow_value 2 kernel expF edist))) ∧
    ∀ (b : ℕ) (i : Fin 1),
      jastrow_value 2 kernel expF edist b i = expF (kernel (edist b 0 1)) := by
  refine ⟨rfl, fun b i => ?_⟩
  simp [jastrow_value, extract_tri_up, index_pairs, List.range',
    List.range_succ]

/-- C10: every call to `AtomicOrbitals.forward` that returns normally
leaves the stored electron count `nelec` equal to its value before the
call — with `one_elec=True` the count is set to 1 for the computation
and the saved value is restored before returning. -/
theorem forward_preserves_nelec {T : Type}
    (compute : List ℤ → Bool → Bool → ℕ → T) (nelec : ℕ)
    (derivative : DerivArg) (sum_grad sum_hess one_elec : Bool)
    (nelec' : ℕ) (t : T)
    (h : AtomicOrbitals.forward compute nelec derivative sum_grad sum_hess
        one_elec = .ok (nelec', t)) :
    nelec' = nelec := by
  simp only [AtomicOrbitals.forward] at h
  split at h
  · cases h
  · split at h
    · cases h
    · split at h
      · rw [Except.ok.injEq, Prod.mk.injEq] at h
        rcases h with ⟨h1, -⟩
        cases one_elec <;> simpa using h1.symm
      · cases h

/-- Witness for C10 at a concrete call: `nelec = 5`, value request with
`one_elec=True`. -/
theorem forward_preserves_nelec_witness : (5 : ℕ) = 5 :=
  forward_preserves_nelec (fun _ _ _ n => n) 5 (.int 0) true true true 5 1
    (by rfl)

/-- C9 counterexample: constructing a `Harmonics` engine with the
unrecognized type `"foo"` does not fail — `__init__` returns an
ordinary state, storing just the tag — and the `ValueError` is raised
only by the later evaluation call, contradicting the claim that the
configuration error is raised when the engine is built and never at
evaluation. -/
theorem harmonics_bad_type_error_not_at_construction :
    Harmonics.init "foo" [] [] [] [] [] = ⟨"foo", none, none, none⟩ ∧
      Harmonics.call (Harmonics.init "foo" [] [] [] [] []) [0] true true
        = .error "Harmonics type should be cart or sph" := by
  constructor <;> rfl

/-- C9 (amended): constructing a harmonics engine with an unrecognized
type succeeds (construction performs no validation); the configuration
error is raised at the first evaluation call. -/
theorem harmonics_bad_type_error_at_evaluation (t : String)
    (bl bm kx ky kz : List ℤ) (ds : List ℤ) (sg sh : Bool)
    (h1 : t ≠ "cart") (h2 : t ≠ "sph") :
    Harmonics.call (Harmonics.init t bl bm kx ky kz) ds sg sh
      = .error "Harmonics type should be cart or sph" := by
  simp [Harmonics.init, Harmonics.call, h1, h2]

/-- Witness for C9 (amended) at the concrete type `"foo"`. -/
theorem harmonics_bad_type_error_at_evaluation_witness :
    Harmonics.call (Harmonics.init "foo" [] [] [] [] []) [0] true true
      = .error "Harmonics type should be cart or sph" :=
  harmonics_bad_type_error_at_evaluation "foo" [] [] [] [] [] [0] true true
    (by decide) (by decide)

/-- C2 (code bug): at the nonzero displacement `(1, 2, 2)` the l = 2,
m = -2 value formula of the source restricts along x to
`t ↦ 1.0925484305920792 * (t * 2) / (t² + 8)`, whose derivative at
`t = 1` is `1.0925484305920792 * 14 / 81`; but the x-component returned
by `_grad_spherical_harmonics_l2` is `0.31539156525252005 * 14 / 81` —
the source reuses the m = 0 constant `c0` for the m ∈ {-2, -1, 1}
gradient branches, so the returned gradient differs from the analytic
coordinate gradient of the value formula (and from the constant
`1.092548…` required by the claim).  The l = 0 part of the claim does
hold: the returned l = 0 gradient is the zero vector. -/
theorem grad_spherical_harmonics_l2_wrong_constant :
    (∀ t : ℚ, spherical_harmonics_l2 (-2) (t, 2, 2)
        = 1.0925484305920792 * (t * 2) / (t ^ 2 + 8)) ∧
    HasDerivAt
      (fun t : ℝ => ((1.0925484305920792 : ℚ) : ℝ) * (t * 2) / (t ^ 2 + 8))
      (((1.0925484305920792 : ℚ) : ℝ) * 14 / 81) 1 ∧
    ((grad_spherical_harmonics_l2 (-2) (1, 2, 2)).1 : ℝ)
      ≠ ((1.0925484305920792 : ℚ) : ℝ) * 14 / 81 ∧
    (∀ v : Vec3, grad_spherical_harmonics_l0 v = (0, 0, 0)) := by
  refine ⟨fun t => ?_, ?_, fun hC => ?_, fun v => rfl⟩
  · norm_num [spherical_harmonics_l2, normSq]
    ring
  · have hnum : HasDerivAt
        (fun t : ℝ => ((1.0925484305920792 : ℚ) : ℝ) * (t * 2))
        (((1.0925484305920792 : ℚ) : ℝ) * (1 * 2)) 1 :=
      HasDerivAt.const_mul _ ((hasDerivAt_id 1).mul_const 2)
    have hden : HasDerivAt (fun t : ℝ => t ^ 2 + 8)
        ((2 : ℕ) * (1 : ℝ) ^ (2 - 1)) 1 := (hasDerivAt_pow 2 1).add_const 8
    have hdiv := hnum.div hden (by norm_num)
    convert hdiv using 1
    norm_num
  · have hQ : (grad_spherical_harmonics_l2 (-2) (1, 2, 2)).1
        = 1.0925484305920792 * 14 / 81 := by exact_mod_cast hC
    norm_num [grad_spherical_harmonics_l2, normSq] at hQ

/-- C3 counterexample: `JastrowFactorElectronElectron.forward` called
with the unsupported derivative order 3 (mixed second, inside the
claimed supported set for the engines) raises nothing and silently
returns `None` (`Except.ok none`), contradicting the claim that such a
call surfaces an error immediately. -/
theorem jastrow_forward_unsupported_returns_none :
    JastrowFactorElectronElectron.forward 2 id id
        (fun _ _ _ _ _ => 0) (fun _ _ _ _ _ _ => 0)
        (fun _ _ _ => 0) (fun _ _ _ => 0) (fun _ _ _ => 0)
        (.int 3) true
      = .ok none := by
  rfl

/-- C3 (amended): `AtomicOrbitals.forward` raises for derivative
requests outside `{[0], [1], [2], [3], [0, 1, 2]}`, and the spherical
harmonics engine raises for an unsummed-Hessian request; but
`JastrowFactorElectronElectron.forward` silently returns `None` (never
an error) for derivative requests matching none of `0`, `1`, `2`,
`[0, 1, 2]`. -/
theorem unsupported_derivative_handling :
    (∀ (compute : List ℤ → Bool → Bool → ℕ → ℕ) (nelec : ℕ)
        (d : DerivArg) (one_elec : Bool),
        d.toList ∉ ([[0], [1], [2], [3], [0, 1, 2]] : List (List ℤ)) →
        AtomicOrbitals.forward compute nelec d true true one_elec
          = .error "derivative must be 0, 1, 2, 3 or [0, 1, 2, 3]") ∧
    (∀ (ds : List ℤ) (sg : Bool),
        SphericalHarmonics_dispatch ds sg false
          = .error
            "SphericalHarmonics cannot return individual component of the laplacian") ∧
    (∀ (nelec : ℕ) (kernel expF : ℚ → ℚ)
        (computeD : (ℕ → List ℚ) → (ℕ → ℕ → ℕ → ℚ) → ℕ → ℕ → ℕ → ℚ)
        (computeD2 : (ℕ → List ℚ) → (ℕ → ℕ → ℕ → ℚ) → (ℕ → ℕ → ℕ → ℚ) →
          ℕ → ℕ → ℕ → ℚ)
        (edist dr d2r : ℕ → ℕ → ℕ → ℚ) (d : DerivArg) (sg : Bool),
        d ≠ .int 0 → d ≠ .int 1 → d ≠ .int 2 → d ≠ .list [0, 1, 2] →
        JastrowFactorElectronElectron.forward nelec kernel expF computeD
            computeD2 edist dr d2r d sg
          = .ok none) := by
  refine ⟨fun compute nelec d one_elec hd => ?_, fun ds sg => rfl,
    fun nelec kernel expF computeD computeD2 edist dr d2r d sg
      h0 h1 h2 h3 => ?_⟩
  · have hd' : ¬(d.toList = [0] ∨ d.toList = [1] ∨ d.toList = [2] ∨
        d.toList = [3] ∨ d.toList = [0, 1, 2]) := by
      simpa using hd
    simp [AtomicOrbitals.forward, hd']
  · simp [JastrowFactorElectronElectron.forward, h0, h1, h2, h3]

/-- Witness for C3 (amended): the three parts at concrete unsupported
requests (`derivative=7` for the orbitals, an unsummed spherical
Hessian, `derivative=3` for the Jastrow engine). -/
theorem unsupported_derivative_handling_witness :
    AtomicOrbitals.forward (fun _ _ _ n => n) 3 (.int 7) true true false
        = .error "derivative must be 0, 1, 2, 3 or [0, 1, 2, 3]" ∧
      SphericalHarmonics_dispatch [2] true false
        = .error
          "SphericalHarmonics cannot return individual component of the laplacian" ∧
      JastrowFactorElectronElectron.forward 3 id id
          (fun _ _ _ _ _ => 1) (fun _ _ _ _ _ _ => 1)
          (fun _ _ _ => 1) (fun _ _ _ => 1) (fun _ _ _ => 1)
          (.list [1, 2]) false
        = .ok none :=
  ⟨unsupported_derivative_handling.1 (fun _ _ _ n => n) 3 (.int 7) false
      (by decide),
    unsupported_derivative_handling.2.1 [2] false,
    unsupported_derivative_handling.2.2 3 id id _ _ _ _ _ (.list [1, 2]) false
      (by decide) (by decide) (by decide) (by decide)⟩

/-- C4 (amended): for the value derivative order, updating one
electron's row of a previously computed AO value tensor equals
recomputing the full value tensor from scratch with that electron's
coordinates changed — every electron's row of `_compute_ao_values`
depends only on that electron's own coordinates. -/
theorem update_equals_value_recompute (p : AOParams)
    (posOld posNew : ℕ → ℕ → Vec3) (idelec : ℕ)
    (h : ∀ b e, e ≠ idelec → posNew b e = posOld b e) :
    update p (compute_ao_values p posOld) posNew idelec
      = compute_ao_values p posNew := by
  funext b e o
  by_cases he : e = idelec
  · subst he
    simp [update, compute_ao_values]
  · simp [update, compute_ao_values, he, h b e he]

/-- Witness for C4 (amended) at a concrete basis and move. -/
theorem update_equals_value_recompute_witness :
    update aoPW (compute_ao_values aoPW cePosNew) cePosNew 0
      = compute_ao_values aoPW cePosNew :=
  update_equals_value_recompute aoPW cePosNew cePosNew 0
    (fun _ _ _ => rfl)

/-- C4 counterexample: the claim fails for derivative orders other than
the value.  `AtomicOrbitals.update` always recomputes the spliced row
with `self.forward(..., one_elec=True)` at its default `derivative=[0]`,
so updating a previously computed sum-gradient tensor does not equal
recomputing the sum-gradient tensor from scratch.  Concretely: one
Slater-pure s primitive with ζ = 0 on an atom at the origin, electron
moved from `(2, 0, 0)` to `(1, 0, 0)` — for every exponential with
`exp 0 = 1`, every square root correct at `1` and `4`, and every
positive normalization constant, the updated row holds the value
`ncst · exp 0 · 0.2820948 ≠ 0` while the recomputed gradient row is
`0`. -/
theorem update_gradient_tensor_not_recompute :
    ¬(∀ (expF sqrtF : ℚ → ℚ) (ncst : ℚ),
        expF 0 = 1 → sqrtF 1 = 1 → sqrtF 4 = 2 → 0 < ncst →
        update (ceParams expF sqrtF ncst)
            (compute_sum_gradient_ao_values (ceParams expF sqrtF ncst)
              cePosOld)
            cePosNew 0
          = compute_sum_gradient_ao_values (ceParams expF sqrtF ncst)
              cePosNew) := by
  intro hclaim
  have h := congrFun (congrFun (congrFun
    (hclaim (fun _ => 1) ceSqrt 1 rfl rfl rfl one_pos) 0) 0) 0
  simp only [update, compute_sum_gradient_ao_values, ceParams, cePosNew,
    ao_value_row, ao_sum_gradient_row, _ao_kernel, _sum_gradient_kernel,
    contract_flag, elec_bas_r, elec_bas_xyz, bas_atom, vsub, normSq, ceSqrt,
    radial_slater_pure_val, radial_slater_pure_grad_sum,
    spherical_harmonics_l0, nabla_spherical_harmonics_l0] at h
  norm_num at h

/-- C8 (amended): `AtomicOrbitals.update` does not mutate its argument
— it works on `ao.clone()` and leaves the caller's tensor unchanged —
and the fresh tensor it returns holds the recomputed values in the
moved electron's row while every other electron's row is unchanged from
the input. -/
theorem update_call_frame (p : AOParams) (ao : ℕ → ℕ → ℕ → ℚ)
    (pos : ℕ → ℕ → Vec3) (idelec : ℕ) :
    (update_call p ao pos idelec).1 = ao ∧
      (∀ b o, (update_call p ao pos idelec).2 b idelec o
          = ao_value_row p (pos b idelec) o) ∧
      (∀ b e o, e ≠ idelec →
          (update_call p ao pos idelec).2 b e o = ao b e o) := by
  refine ⟨rfl, fun b o => by simp [update_call, update],
    fun b e o he => by simp [update_call, update, he]⟩

/-- Witness for C8 (amended): the unmoved electron row 1 of the
returned tensor equals the input row. -/
theorem update_call_frame_witness :
    (update_call aoPW (fun _ _ _ => 0) cePosNew 0).2 0 1 0 = 0 :=
  (update_call_frame aoPW (fun _ _ _ => 0) cePosNew 0).2.2 0 1 0
    (by decide)

/-- C8 counterexample: `update` does not mutate the previously computed
tensor in place — after the call the caller's argument still holds its
old entries, not the recomputed values.  Concretely, with the C4
counterexample basis and a zero input tensor, the argument's row for
electron 0 after the call is `0` while the recomputed value is
`ncst · exp 0 · 0.2820948 ≠ 0`, for every exponential with `exp 0 = 1`,
square root correct at `1`, and positive normalization constant. -/
theorem update_does_not_mutate_argument :
    ¬(∀ (expF sqrtF : ℚ → ℚ) (ncst : ℚ),
        expF 0 = 1 → sqrtF 1 = 1 → 0 < ncst →
        (update_call (ceParams expF sqrtF ncst) (fun _ _ _ => 0)
            cePosNew 0).1 0 0 0
          = ao_value_row (ceParams expF sqrtF ncst) (cePosNew 0 0) 0) := by
  intro hclaim
  have h := hclaim (fun _ => 1) ceSqrt 1 rfl rfl one_pos
  simp only [update_call, ceParams, cePosNew, ao_value_row, _ao_kernel,
    contract_flag, elec_bas_r, elec_bas_xyz, bas_atom, vsub, normSq, ceSqrt,
    radial_slater_pure_val, spherical_harmonics_l0] at h
  norm_num at h

/-- C6 (amended): for every position batch, the Jastrow
second-derivative output equals the Jastrow value times the sum of (a)
the direct scatter-add of the dimension-summed kernel second
derivatives over both the row and the column index arrays (both with
sign +1) and (b) a cross term obtained by repeating the signed
(+row/−column) scatter-add of the kernel first derivatives, squaring
it, and summing over the spatial-dimension axis (not the scattered
electron-pair axis: the squared tensor has axes batch × dimension ×
electron and the sum runs over the dimension axis, leaving one entry
per electron). -/
theorem second_derivative_decomposition (nelec : ℕ)
    (computeD : (ℕ → List ℚ) → (ℕ → ℕ → ℕ → ℚ) → ℕ → ℕ → ℕ → ℚ)
    (computeD2 :
      (ℕ → List ℚ) → (ℕ → ℕ → ℕ → ℚ) → (ℕ → ℕ → ℕ → ℚ) → ℕ → ℕ → ℕ → ℚ)
    (r : ℕ → List ℚ) (dr d2r : ℕ → ℕ → ℕ → ℚ) (jast : ℕ → ℚ) (b e : ℕ) :
    jastrow_factor_second_derivative nelec computeD computeD2 r dr d2r jast
        b e
      = jast b *
          ((index_add (index_row nelec) (dimSum (computeD2 r dr d2r) b)
              (fun _ => 0) e
            + index_add (index_col nelec) (dimSum (computeD2 r dr d2r) b)
              (fun _ => 0) e)
           + (signed_scatter nelec (computeD r dr b 0) e ^ 2
              + signed_scatter nelec (computeD r dr b 1) e ^ 2
              + signed_scatter nelec (computeD r dr b 2) e ^ 2)) := by
  simp only [jastrow_factor_second_derivative, partial_derivative, index_add]
  ring

/-- C6 counterexample: with three electrons, kernel first derivatives
supported on the first spatial dimension of the pair `(0, 1)`, zero
kernel second derivatives and Jastrow value 1, the source's second
derivative at electron 0 is `1` while the claim's formula — which sums
the squared signed scatter-add over the scattered electron axis instead
of the spatial-dimension axis — gives `2`. -/
theorem second_derivative_cross_term_axis_counterexample :
    jastrow_factor_second_derivative 3 ceKernelD ceKernelD2
        (fun _ => []) (fun _ _ _ => 0) (fun _ _ _ => 0) (fun _ => 1) 0 0
      ≠ jastrow_second_derivative_claimed 3 ceKernelD ceKernelD2
        (fun _ => []) (fun _ _ _ => 0) (fun _ _ _ => 0) (fun _ => 1) 0 0 := by
  have hrow : index_row 3 = [0, 0, 1] := rfl
  have hcol : index_col 3 = [1, 2, 2] := rfl
  simp only [jastrow_factor_second_derivative,
    jastrow_second_derivative_claimed, partial_derivative,
    partial_derivative_claimed, signed_scatter, dimSum, ceKernelD, ceKernelD2,
    index_add, hrow, hcol]
  norm_num [Finset.sum_range_succ, List.getD_cons_zero, List.getD_cons_succ]

end QMCTorch
